import Mathlib

/-!
Shallow embedding of the graph-ingestion core of the python-etl package
(src/neo4j_client.py) together with proofs about the data-quality claims of
its design document.

Modelling conventions:
- Cypher floating point scores are modelled as rationals.
- The graph store visible to the client is a state record: a list of nodes
  (each with a store-internal id), a list of typed edges between internal
  node ids, and a counter for fresh internal ids.
- The server clock observed through the Cypher datetime() function is passed
  to each operation explicitly as a natural number timestamp; all statements
  of one transaction observe the same timestamp, matching the transaction
  clock of the store.
- Each Cypher statement issued by the client is translated into a pure state
  transformer, clause by clause (MATCH builds the row set, MERGE either finds
  the pattern or creates it, ON CREATE SET and ON MATCH SET update fields).
-/

/-- Scalar property values carried on edges, mirroring the open key/value
maps the client sends as statement parameters. -/
inductive PropValue where
  | str : String → PropValue
  | num : ℚ → PropValue
  | flag : Bool → PropValue
  | datetime : Nat → PropValue
deriving DecidableEq

/-- The CompanyEntity dataclass of neo4j_client.py, field for field.  The
Python class is a plain dataclass: its constructor performs no validation,
so every combination of field values is representable. -/
structure CompanyEntity where
  permid : Int
  name : String
  is_final_assembler : Bool
  match_score : ℚ
  industry_sector : Option String := none
  country : Option String := none
  market_cap : Option Int := none
  revenue : Option Int := none
deriving DecidableEq

/-- The RelationshipData dataclass of neo4j_client.py. -/
structure RelationshipData where
  source_name : String
  target_name : String
  relationship_type : String
  properties : List (String × PropValue)
deriving DecidableEq

/-- A Company node as stored: the supplied attributes plus the store-side
metadata set by the upsert statements. -/
structure Company where
  permid : Int
  name : String
  is_final_assembler : Bool
  match_score : ℚ
  industry_sector : Option String
  country : Option String
  market_cap : Option Int
  revenue : Option Int
  ingestion_date : Option Nat
  created_by : Option String
  last_updated : Option Nat
deriving DecidableEq

/-- A typed edge between two nodes, identified by the store-internal ids of
its endpoints. -/
structure Edge where
  src : Nat
  tgt : Nat
  typ : String
  props : List (String × PropValue)
deriving DecidableEq

/-- The client-visible state of the graph store. -/
structure GraphState where
  nextId : Nat
  nodes : List (Nat × Company)
  edges : List Edge
deriving DecidableEq

def emptyStore : GraphState :=
  { nextId := 0, nodes := [], edges := [] }

/-- The score 0.5, as a rational in lowest terms (kernel-computable normal
form). -/
def ratHalf : ℚ := ⟨1, 2, by decide, by decide⟩

/-- The score 0.6, as the rational 3/5 in lowest terms. -/
def rat06 : ℚ := ⟨3, 5, by decide, by decide⟩

/-- The score 0.7, as a rational in lowest terms. -/
def rat07 : ℚ := ⟨7, 10, by decide, by decide⟩

/-- The score 0.8, as the rational 4/5 in lowest terms. -/
def rat08 : ℚ := ⟨4, 5, by decide, by decide⟩

/-- The score 0.9, as a rational in lowest terms. -/
def rat09 : ℚ := ⟨9, 10, by decide, by decide⟩

/-- All nodes whose permid property equals the given key (the row set of
MATCH (c:Company \x7bpermid: $permid\x7d)). -/
def nodesWithPermid (st : GraphState) (p : Int) : List (Nat × Company) :=
  st.nodes.filter (fun n => decide (n.2.permid = p))

/-- All nodes whose name property equals the given string (the row set of
MATCH (c:Company \x7bname: $name\x7d)). -/
def nodesWithName (st : GraphState) (nm : String) : List (Nat × Company) :=
  st.nodes.filter (fun n => decide (n.2.name = nm))

/-- The ON CREATE SET clause of the company upsert: all supplied attributes
plus ingestion_date = datetime() and created_by = the source tag. -/
def onCreateCompany (now : Nat) (createdBy : String) (e : CompanyEntity) : Company :=
  { permid := e.permid
    name := e.name
    is_final_assembler := e.is_final_assembler
    match_score := e.match_score
    industry_sector := e.industry_sector
    country := e.country
    market_cap := e.market_cap
    revenue := e.revenue
    ingestion_date := some now
    created_by := some createdBy
    last_updated := none }

/-- The ON MATCH SET clause of the company upsert: match_score is replaced
only when the supplied value is strictly greater (CASE WHEN $match_score >
c.match_score THEN $match_score ELSE c.match_score END), and last_updated is
set to datetime().  No other field is touched. -/
def onMatchCompany (now : Nat) (e : CompanyEntity) (c : Company) : Company :=
  { c with
    match_score := if e.match_score > c.match_score then e.match_score else c.match_score
    last_updated := some now }

/-- One row returned by the company upsert statement
(RETURN c.permid AS permid, c.name AS name, SUCCESS literal AS status). -/
structure MergeRecord where
  permid : Int
  name : String
  status : String
deriving DecidableEq

/-- MERGE (c:Company \x7bpermid: $permid\x7d) with the ON CREATE SET and
ON MATCH SET clauses of ingest_company_entity / batch_ingest_companies: if no
node carries the permid a fresh node is created from the supplied attributes,
otherwise every matched node receives the ON MATCH update. -/
def mergeCompany (now : Nat) (createdBy : String) (e : CompanyEntity)
    (st : GraphState) : GraphState × List MergeRecord :=
  let found := nodesWithPermid st e.permid
  if found.isEmpty then
    let c := onCreateCompany now createdBy e
    ({ st with
        nextId := st.nextId + 1
        nodes := st.nodes ++ [(st.nextId, c)] },
     [{ permid := c.permid, name := c.name, status := "SUCCESS" }])
  else
    ({ st with
        nodes := st.nodes.map (fun n =>
          if n.2.permid = e.permid then (n.1, onMatchCompany now e n.2) else n) },
     found.map (fun n =>
       { permid := n.2.permid, name := n.2.name, status := "SUCCESS" }))

/-- Store effect of ingest_company_entity: a single MERGE keyed by permid,
with created_by tag python_etl. -/
def ingest_company_entity_store (now : Nat) (c : CompanyEntity)
    (st : GraphState) : GraphState × List MergeRecord :=
  mergeCompany now "python_etl" c st

/-- Store effect of the UNWIND $entities ... MERGE statement of
batch_ingest_companies: the same per-row merge, applied to the entities in
list order within one statement, with created_by tag python_etl_batch. -/
def batch_ingest_companies_store (now : Nat) (cs : List CompanyEntity)
    (st : GraphState) : GraphState :=
  cs.foldl (fun s e => (mergeCompany now "python_etl_batch" e s).1) st

/-- Replace the value stored under a key, or append the pair when the key is
absent (one assignment performed by the Cypher += operator). -/
def setProp (ps : List (String × PropValue)) (k : String) (v : PropValue) :
    List (String × PropValue) :=
  match ps with
  | [] => [(k, v)]
  | (k0, v0) :: rest =>
    if k0 = k then (k, v) :: rest else (k0, v0) :: setProp rest k v

/-- The Cypher += operator on a property map: every key of the update map is
written into the base map. -/
def addProps (base upd : List (String × PropValue)) : List (String × PropValue) :=
  upd.foldl (fun ps kv => setProp ps kv.1 kv.2) base

/-- One row returned by the create_relationship statement
(RETURN source.name, target.name, type(r)). -/
structure RelRow where
  source : String
  target : String
  relationship_type : String
deriving DecidableEq

/-- The MERGE (source)-[r:TYPE]->(target) step of create_relationship for one
matched endpoint row: when no edge of that type runs between the two matched
nodes a fresh edge is created (ON CREATE SET r += $properties,
r.created_date = datetime()), otherwise every such edge receives the
ON MATCH update (ON MATCH SET r += $properties, r.last_updated = datetime()). -/
def mergeRelRow (now : Nat) (typ : String) (props : List (String × PropValue))
    (s t : Nat × Company) (st : GraphState) : GraphState × RelRow :=
  let hit := fun (e : Edge) => decide (e.src = s.1 ∧ e.tgt = t.1 ∧ e.typ = typ)
  let st2 :=
    if (st.edges.filter hit).isEmpty then
      { st with edges := st.edges ++
          [{ src := s.1, tgt := t.1, typ := typ
             props := setProp (addProps [] props) "created_date" (PropValue.datetime now) }] }
    else
      { st with edges := st.edges.map (fun e =>
          if hit e then
            { e with props := setProp (addProps e.props props) "last_updated" (PropValue.datetime now) }
          else e) }
  (st2, { source := s.2.name, target := t.2.name, relationship_type := typ })

/-- Store effect of the create_relationship statement: the two MATCH clauses
build the cross product of the nodes carrying the two names, then the MERGE
runs once per row in order.  With a missing endpoint the row set is empty and
the statement does nothing. -/
def create_relationship_store (now : Nat) (rel : RelationshipData)
    (st : GraphState) : GraphState × List RelRow :=
  let rows := (nodesWithName st rel.source_name).flatMap
    (fun s => (nodesWithName st rel.target_name).map (fun t => (s, t)))
  rows.foldl
    (fun acc r =>
      let step := mergeRelRow now rel.relationship_type rel.properties r.1 r.2 acc.1
      (step.1, acc.2 ++ [step.2]))
    (st, [])

/-- The literal property map written inside the MERGE pattern of
create_supply_chain_relationships, with datetime() evaluated at the
transaction clock. -/
def supplyDefaultProps (now : Nat) : List (String × PropValue) :=
  [("created_date", PropValue.datetime now),
   ("confidence", PropValue.num rat09),
   ("relationship_source", PropValue.str "etl_pipeline")]

/-- MERGE (supplier)-[:SUPPLY_COMPONENTS \x7b...\x7d]->(customer) for one
matched endpoint row.  Because the property map is part of the MERGE pattern,
the pattern only matches an edge that already carries exactly those property
values (in particular the same created_date timestamp); otherwise a fresh
edge is created.  The statement has no ON CREATE or ON MATCH clause. -/
def mergeSupplyRow (now : Nat) (s t : Nat × Company) (st : GraphState) : GraphState :=
  let hit := fun (e : Edge) =>
    decide (e.src = s.1 ∧ e.tgt = t.1 ∧ e.typ = "SUPPLY_COMPONENTS") &&
      (supplyDefaultProps now).all (fun kv => decide (e.props.lookup kv.1 = some kv.2))
  if (st.edges.filter hit).isEmpty then
    { st with edges := st.edges ++
        [{ src := s.1, tgt := t.1, typ := "SUPPLY_COMPONENTS"
           props := supplyDefaultProps now }] }
  else st

/-- Store effect of one (supplier, customer) statement built by
create_supply_chain_relationships: MATCH both names, then the pattern MERGE
once per endpoint row. -/
def mergeSupplyStatement (now : Nat) (supplier customer : String)
    (st : GraphState) : GraphState :=
  let rows := (nodesWithName st supplier).flatMap
    (fun s => (nodesWithName st customer).map (fun t => (s, t)))
  rows.foldl (fun acc r => mergeSupplyRow now r.1 r.2 acc) st

/-- Sequential execution of the per-pair statements inside the transaction
function passed to session.execute_write: statements run in list order; the
store may report a failure at any statement (the oracle fail gives the error
raised while running statement i, if any), which aborts the sequence. -/
def runTxStatements (fail : Nat → Option String) (now : Nat) :
    Nat → List (String × String) → GraphState → Except String GraphState
  | _, [], st => Except.ok st
  | i, p :: rest, st =>
    match fail i with
    | some e => Except.error e
    | none => runTxStatements fail now (i + 1) rest (mergeSupplyStatement now p.1 p.2 st)

/-- execute_write_transaction: the statement list runs as one managed write
transaction; on success the store adopts the final state, on any failure the
transaction is rolled back and the observable store state is unchanged. -/
def execute_write_transaction_run (fail : Nat → Option String) (now : Nat)
    (stmts : List (String × String)) (st : GraphState) :
    GraphState × Except String Unit :=
  match runTxStatements fail now 0 stmts st with
  | Except.ok st2 => (st2, Except.ok ())
  | Except.error e => (st, Except.error e)

/-- The result dictionary of create_supply_chain_relationships: on success a
dict with relationships_created = number of pairs and status SUCCESS, on any
exception a dict with status ERROR and the message. -/
inductive SupplyChainResult where
  | success : Nat → SupplyChainResult
  | err : String → SupplyChainResult
deriving DecidableEq

/-- create_supply_chain_relationships: build one statement per
(supplier, customer) pair, run them all through execute_write_transaction,
and report either success with the pair count or the caught error. -/
def create_supply_chain_relationships_run (fail : Nat → Option String) (now : Nat)
    (pairs : List (String × String)) (st : GraphState) :
    GraphState × SupplyChainResult :=
  match execute_write_transaction_run fail now pairs st with
  | (st2, Except.ok _) => (st2, SupplyChainResult.success pairs.length)
  | (st2, Except.error e) => (st2, SupplyChainResult.err e)

/-- The pure sequential application of all pair statements, used to state
that a committed batch applied every requested statement in order. -/
def applyPairs (now : Nat) (pairs : List (String × String)) (st : GraphState) : GraphState :=
  pairs.foldl (fun s p => mergeSupplyStatement now p.1 p.2 s) st

/-- Outcome of running the body of execute_query once against the session:
either the result records, or a raised error of a transient kind
(ServiceUnavailable / TransientError, the kinds listed in the decorator), or
a raised error of any other kind. -/
inductive AttemptOutcome (α : Type) where
  | success : α → AttemptOutcome α
  | transient : String → AttemptOutcome α
  | fatal : String → AttemptOutcome α
deriving DecidableEq

/-- Result of a retry-wrapped call: the value or the raised error, together
with the number of attempts made and the list of sleep delays performed. -/
inductive RetryResult (α : Type) where
  | ok : α → Nat → List Nat → RetryResult α
  | err : String → Nat → List Nat → RetryResult α
deriving DecidableEq

/-- The retry decorator of the retry package, applied to a plain function:
with tries total attempts remaining, run the function; a raised error of a
listed kind is retried after sleeping the current delay, which is multiplied
by the backoff factor for the next attempt, until the attempt budget is
exhausted, at which point the last error is re-raised; a raised error of any
other kind propagates immediately. -/
def retryExec {α : Type} (att : Nat → AttemptOutcome α) (backoff : Nat) :
    Nat → Nat → Nat → List Nat → RetryResult α
  | 0, k, _, ds => RetryResult.err "retry budget exhausted" k ds
  | tries + 1, k, d, ds =>
    match att k with
    | AttemptOutcome.success v => RetryResult.ok v (k + 1) ds
    | AttemptOutcome.fatal e => RetryResult.err e (k + 1) ds
    | AttemptOutcome.transient e =>
      if tries = 0 then RetryResult.err e (k + 1) ds
      else retryExec att backoff tries (k + 1) (d * backoff) (ds ++ [d])

/-- The behaviour the decorator line on execute_query declares:
retry(exceptions=(ServiceUnavailable, TransientError), tries=3, delay=2,
backoff=2) applied to a plain function. -/
def execute_query_declared {α : Type} (att : Nat → AttemptOutcome α) : RetryResult α :=
  retryExec att 2 3 0 2 []

/-- The behaviour of the decorated execute_query as the code actually
composes it: execute_query is a coroutine function, so the call the sync
retry decorator performs inside its try block only creates the coroutine and
never raises; the decorator therefore returns the first coroutine unawaited,
and the error of the first real attempt surfaces later, at the await in the
caller, outside the retry loop.  No attempt is ever repeated and no backoff
sleep happens. -/
def execute_query_actual {α : Type} (att : Nat → AttemptOutcome α) : AttemptOutcome α :=
  att 0

/-- What the caller that awaits the decorated execute_query observes, as an
exception-or-records outcome. -/
def queryOutcome {α : Type} (att : Nat → AttemptOutcome α) : Except String α :=
  match execute_query_actual att with
  | AttemptOutcome.success v => Except.ok v
  | AttemptOutcome.transient e => Except.error e
  | AttemptOutcome.fatal e => Except.error e

/-- The result dictionary of ingest_company_entity: the first returned record
(which carries permid, name and the SUCCESS status column), or a dict with
status FAILED when no record came back, or a dict with status ERROR and the
message when an exception was caught. -/
inductive IngestResult where
  | record : Int → String → String → IngestResult
  | failed : IngestResult
  | err : String → IngestResult
deriving DecidableEq

/-- The try/except result handling of ingest_company_entity, as a function of
the awaited execute_query outcome. -/
def ingest_company_entity_result (q : Except String (List MergeRecord)) : IngestResult :=
  match q with
  | Except.ok [] => IngestResult.failed
  | Except.ok (r :: _) => IngestResult.record r.permid r.name r.status
  | Except.error e => IngestResult.err e

/-- ingest_company_entity composed with the awaited execute_query call. -/
def ingest_company_entity_run (att : Nat → AttemptOutcome (List MergeRecord)) : IngestResult :=
  ingest_company_entity_result (queryOutcome att)

/-- The batch statistics dictionary returned by batch_ingest_companies. -/
structure BatchResult where
  success_count : Nat
  error_count : Nat
  total : Nat
  status : Option String
  error : Option String
deriving DecidableEq

/-- The try/except result handling of batch_ingest_companies, as a function
of the company list and the awaited execute_query outcome: the query returns
the ingested_count rows; on success the dict carries that count with zero
errors, on a caught exception the dict carries status ERROR, the message,
success_count 0 and error_count equal to the batch size. -/
def batch_ingest_companies_result (cs : List CompanyEntity)
    (q : Except String (List Nat)) : BatchResult :=
  match q with
  | Except.ok counts =>
    { success_count := counts.headD 0
      error_count := 0
      total := cs.length
      status := some "SUCCESS"
      error := none }
  | Except.error e =>
    { success_count := 0
      error_count := cs.length
      total := cs.length
      status := some "ERROR"
      error := some e }

/-- batch_ingest_companies: the empty batch short-circuits before any store
interaction with a bare counts dict; otherwise the single UNWIND statement is
awaited and its outcome converted to the statistics dict. -/
def batch_ingest_companies_run (cs : List CompanyEntity)
    (att : Nat → AttemptOutcome (List Nat)) : BatchResult :=
  if cs.isEmpty then
    { success_count := 0, error_count := 0, total := 0, status := none, error := none }
  else
    batch_ingest_companies_result cs (queryOutcome att)

/-- The result handling of create_relationship: first returned row, FAILED
dict when the row set is empty, ERROR dict on a caught exception. -/
inductive RelResult where
  | row : String → String → String → RelResult
  | failed : RelResult
  | err : String → RelResult
deriving DecidableEq

/-- create_relationship on the success path of the awaited query: the store
applies the statement and the first row (if any) becomes the result dict. -/
def create_relationship_run (now : Nat) (rel : RelationshipData)
    (st : GraphState) : GraphState × RelResult :=
  let step := create_relationship_store now rel st
  match step.2 with
  | [] => (step.1, RelResult.failed)
  | r :: _ => (step.1, RelResult.row r.source r.target r.relationship_type)

/-- The match_score stored for a permid: the score of the first node carrying
that permid, if any. -/
def scoreOf (st : GraphState) (p : Int) : Option ℚ :=
  match nodesWithPermid st p with
  | [] => none
  | n :: _ => some n.2.match_score

/-- Monotonic-max combination of an optional existing score with a supplied
score: the supplied score when nothing is stored, otherwise the maximum. -/
def optMax (a : Option ℚ) (s : ℚ) : ℚ :=
  match a with
  | none => s
  | some t => max t s

/-- A company entity keyed by permid 100, used for the concrete upsert
scenarios of the design document. -/
def entityX (s : ℚ) : CompanyEntity :=
  { permid := 100, name := "X", is_final_assembler := false, match_score := s }

/-- One single-entity upsert of permid 100 with the given score. -/
def upsertX (s : ℚ) (st : GraphState) : GraphState :=
  (ingest_company_entity_store 1 (entityX s) st).1

/-- A stored company used as the pre-existing node of concrete scenarios. -/
def sampleOld : Company :=
  { permid := 5, name := "Old Name", is_final_assembler := false, match_score := rat07
    industry_sector := some "Technology", country := some "United States"
    market_cap := some 10, revenue := some 3
    ingestion_date := some 0, created_by := some "python_etl", last_updated := none }

/-- A store holding exactly the node sampleOld under internal id 0. -/
def sampleStore : GraphState :=
  { nextId := 1, nodes := [(0, sampleOld)], edges := [] }

/-- An entity re-ingesting permid 5 with different attribute values and a
lower score. -/
def sampleNew : CompanyEntity :=
  { permid := 5, name := "New Name", is_final_assembler := true, match_score := ratHalf
    industry_sector := some "Semiconductors", country := some "Taiwan"
    market_cap := some 20, revenue := some 4 }

/-- First batch entry for permid 7 (score 0.6). -/
def ent7a : CompanyEntity :=
  { permid := 7, name := "Seven A", is_final_assembler := false, match_score := rat06 }

/-- Second batch entry for permid 7 (score 0.8). -/
def ent7b : CompanyEntity :=
  { permid := 7, name := "Seven B", is_final_assembler := false, match_score := rat08 }

/-- A stored node for permid 7 whose score 0.9 exceeds both batch entries. -/
def pre7 : Company :=
  { permid := 7, name := "Seven", is_final_assembler := false, match_score := rat09
    industry_sector := none, country := none, market_cap := none, revenue := none
    ingestion_date := some 0, created_by := some "python_etl", last_updated := none }

/-- A store holding exactly the node pre7 under internal id 0. -/
def store7 : GraphState :=
  { nextId := 1, nodes := [(0, pre7)], edges := [] }

/-- Supplier node for the relationship scenarios. -/
def companyA : Company :=
  { permid := 1, name := "A", is_final_assembler := false, match_score := ratHalf
    industry_sector := none, country := none, market_cap := none, revenue := none
    ingestion_date := some 0, created_by := some "python_etl", last_updated := none }

/-- Customer node for the relationship scenarios. -/
def companyB : Company :=
  { permid := 2, name := "B", is_final_assembler := true, match_score := ratHalf
    industry_sector := none, country := none, market_cap := none, revenue := none
    ingestion_date := some 0, created_by := some "python_etl", last_updated := none }

/-- A store holding the nodes A and B and no edges. -/
def storeAB : GraphState :=
  { nextId := 2, nodes := [(0, companyA), (1, companyB)], edges := [] }

/-- The CompanyEntity value built from a malformed record: non-positive
permid, empty name, match_score outside [0, 1].  The dataclass constructor
accepts it unchanged. -/
def malformedEntity : CompanyEntity :=
  { permid := 0, name := "", is_final_assembler := false, match_score := 2 }

/-- A session behaviour that fails transiently on the first two attempts and
would succeed on the third. -/
def attemptTransientTwice (k : Nat) : AttemptOutcome Nat :=
  if k < 2 then AttemptOutcome.transient "ServiceUnavailable" else AttemptOutcome.success 42

/-- A session behaviour whose every attempt raises a transient error, as
seen by the single-record ingestion query. -/
def attFailIngest (_ : Nat) : AttemptOutcome (List MergeRecord) :=
  AttemptOutcome.transient "store down"

/-- A session behaviour whose every attempt raises a transient error, as
seen by the batch ingestion query. -/
def attFailBatch (_ : Nat) : AttemptOutcome (List Nat) :=
  AttemptOutcome.transient "store down"

/-- The Cypher CASE update of match_score is exactly the maximum of the
stored and the supplied score. -/
theorem ite_gt_eq_max (a b : ℚ) : (if b > a then b else a) = max a b := by
  rcases le_or_lt b a with h | h
  · simp [not_lt.mpr h, max_eq_left h]
  · simp [h, max_eq_right h.le]

/-- Filtering by a permid key commutes with the ON MATCH node update of that
same key, because the update preserves permid. -/
theorem filter_map_update (l : List (Nat × Company)) (p : Int) (g : Company → Company)
    (hg : ∀ x, (g x).permid = x.permid) :
    (l.map (fun n => if n.2.permid = p then (n.1, g n.2) else n)).filter
        (fun n => decide (n.2.permid = p))
      = (l.filter (fun n => decide (n.2.permid = p))).map (fun n => (n.1, g n.2)) := by
  induction l with
  | nil => rfl
  | cons a t ih =>
    simp only [List.map_cons, List.filter_cons]
    by_cases hc : a.2.permid = p
    · simp [hc, hg a.2, ih]
    · simp [hc, ih]

/-- Filtering by a different permid key is untouched by the ON MATCH node
update. -/
theorem filter_map_update_ne (l : List (Nat × Company)) (p q : Int) (hpq : q ≠ p)
    (g : Company → Company) (hg : ∀ x, (g x).permid = x.permid) :
    (l.map (fun n => if n.2.permid = p then (n.1, g n.2) else n)).filter
        (fun n => decide (n.2.permid = q))
      = l.filter (fun n => decide (n.2.permid = q)) := by
  induction l with
  | nil => rfl
  | cons a t ih =>
    simp only [List.map_cons, List.filter_cons]
    by_cases hc : a.2.permid = p
    · have hq : ¬ a.2.permid = q := fun hh => hpq (hh ▸ hc)
      simp [hc, hg a.2, hq, Ne.symm hpq, ih]
    · simp [hc, ih]

/-- The ON MATCH update preserves permid. -/
theorem onMatchCompany_permid (now : Nat) (e : CompanyEntity) (c : Company) :
    (onMatchCompany now e c).permid = c.permid := rfl

/-- When no node carries the permid, the MERGE appends one freshly created
node. -/
theorem mergeCompany_nodes_absent (now : Nat) (cb : String) (e : CompanyEntity)
    (st : GraphState) (h : nodesWithPermid st e.permid = []) :
    (mergeCompany now cb e st).1.nodes
      = st.nodes ++ [(st.nextId, onCreateCompany now cb e)] := by
  simp [mergeCompany, h]

/-- When some node carries the permid, the MERGE applies the ON MATCH update
to every node carrying it. -/
theorem mergeCompany_nodes_present (now : Nat) (cb : String) (e : CompanyEntity)
    (st : GraphState) (h : nodesWithPermid st e.permid ≠ []) :
    (mergeCompany now cb e st).1.nodes
      = st.nodes.map (fun n =>
          if n.2.permid = e.permid then (n.1, onMatchCompany now e n.2) else n) := by
  simp [mergeCompany, List.isEmpty_iff, h]

/-- Node rows for the merged permid after a creating MERGE. -/
theorem nodesWithPermid_merge_absent (now : Nat) (cb : String) (e : CompanyEntity)
    (st : GraphState) (h : nodesWithPermid st e.permid = []) :
    nodesWithPermid (mergeCompany now cb e st).1 e.permid
      = [(st.nextId, onCreateCompany now cb e)] := by
  have hn := mergeCompany_nodes_absent now cb e st h
  unfold nodesWithPermid at h ⊢
  rw [hn, List.filter_append, h]
  simp [onCreateCompany]

/-- Node rows for the merged permid after a matching MERGE: every previously
matching row, updated. -/
theorem nodesWithPermid_merge_present (now : Nat) (cb : String) (e : CompanyEntity)
    (st : GraphState) (h : nodesWithPermid st e.permid ≠ []) :
    nodesWithPermid (mergeCompany now cb e st).1 e.permid
      = (nodesWithPermid st e.permid).map (fun n => (n.1, onMatchCompany now e n.2)) := by
  have hn := mergeCompany_nodes_present now cb e st h
  unfold nodesWithPermid
  rw [hn]
  exact filter_map_update st.nodes e.permid (onMatchCompany now e)
    (onMatchCompany_permid now e)

/-- Node rows for every other permid are untouched by a MERGE. -/
theorem nodesWithPermid_merge_other (now : Nat) (cb : String) (e : CompanyEntity)
    (st : GraphState) (q : Int) (hq : q ≠ e.permid) :
    nodesWithPermid (mergeCompany now cb e st).1 q = nodesWithPermid st q := by
  by_cases h : nodesWithPermid st e.permid = []
  · have hn := mergeCompany_nodes_absent now cb e st h
    unfold nodesWithPermid
    rw [hn, List.filter_append]
    simp [onCreateCompany, hq.symm]
  · have hn := mergeCompany_nodes_present now cb e st h
    unfold nodesWithPermid
    rw [hn]
    exact filter_map_update_ne st.nodes e.permid q hq (onMatchCompany now e)
      (onMatchCompany_permid now e)

/-- After a MERGE for a permid carried by at most one node, exactly one node
carries that permid. -/
theorem nodesWithPermid_merge_length_one (now : Nat) (cb : String) (e : CompanyEntity)
    (st : GraphState) (h : (nodesWithPermid st e.permid).length ≤ 1) :
    (nodesWithPermid (mergeCompany now cb e st).1 e.permid).length = 1 := by
  cases hfe : nodesWithPermid st e.permid with
  | nil => rw [nodesWithPermid_merge_absent now cb e st hfe]; rfl
  | cons a t =>
    have hne : nodesWithPermid st e.permid ≠ [] := by rw [hfe]; exact List.cons_ne_nil a t
    rw [nodesWithPermid_merge_present now cb e st hne, List.length_map, hfe]
    rw [hfe] at h
    simpa using h

/-- A matching MERGE does not change the number of nodes in the store. -/
theorem mergeCompany_length_present (now : Nat) (cb : String) (e : CompanyEntity)
    (st : GraphState) (h : nodesWithPermid st e.permid ≠ []) :
    (mergeCompany now cb e st).1.nodes.length = st.nodes.length := by
  rw [mergeCompany_nodes_present now cb e st h, List.length_map]

/-- After any MERGE, some node carries the merged permid. -/
theorem nodesWithPermid_merge_ne_nil (now : Nat) (cb : String) (e : CompanyEntity)
    (st : GraphState) :
    nodesWithPermid (mergeCompany now cb e st).1 e.permid ≠ [] := by
  cases hfe : nodesWithPermid st e.permid with
  | nil => simp [nodesWithPermid_merge_absent now cb e st hfe]
  | cons a t =>
    have hne : nodesWithPermid st e.permid ≠ [] := by rw [hfe]; exact List.cons_ne_nil a t
    rw [nodesWithPermid_merge_present now cb e st hne, hfe]
    simp

/-- Stored score after a MERGE of an entity with the same permid: the
monotonic-max combination of the stored and the supplied score. -/
theorem scoreOf_merge_same (now : Nat) (cb : String) (e : CompanyEntity)
    (st : GraphState) :
    scoreOf (mergeCompany now cb e st).1 e.permid
      = some (optMax (scoreOf st e.permid) e.match_score) := by
  cases hfe : nodesWithPermid st e.permid with
  | nil =>
    rw [scoreOf, nodesWithPermid_merge_absent now cb e st hfe]
    simp [scoreOf, hfe, optMax, onCreateCompany]
  | cons a t =>
    have hne : nodesWithPermid st e.permid ≠ [] := by rw [hfe]; exact List.cons_ne_nil a t
    rw [scoreOf, nodesWithPermid_merge_present now cb e st hne, hfe]
    simp [scoreOf, hfe, optMax, onMatchCompany, ite_gt_eq_max]

/-- Stored score of every other permid is untouched by a MERGE. -/
theorem scoreOf_merge_other (now : Nat) (cb : String) (e : CompanyEntity)
    (st : GraphState) (q : Int) (hq : q ≠ e.permid) :
    scoreOf (mergeCompany now cb e st).1 q = scoreOf st q := by
  rw [scoreOf, nodesWithPermid_merge_other now cb e st q hq, scoreOf]

/-- Stored score of a permid after a whole batch statement: the left fold of
the monotonic-max combination over the scores of the batch rows carrying that
permid, starting from the stored score. -/
theorem scoreOf_batch (now : Nat) (cs : List CompanyEntity) (st : GraphState) (p : Int) :
    scoreOf (batch_ingest_companies_store now cs st) p
      = ((cs.filter (fun c => decide (c.permid = p))).map (fun c => c.match_score)).foldl
          (fun a s => some (optMax a s)) (scoreOf st p) := by
  induction cs generalizing st with
  | nil => rfl
  | cons c rest ih =>
    by_cases hc : c.permid = p
    · rw [show batch_ingest_companies_store now (c :: rest) st
            = batch_ingest_companies_store now rest (mergeCompany now "python_etl_batch" c st).1 from rfl,
        ih]
      have hs := scoreOf_merge_same now "python_etl_batch" c st
      rw [hc] at hs
      rw [hs]
      simp [List.filter_cons, hc]
    · rw [show batch_ingest_companies_store now (c :: rest) st
            = batch_ingest_companies_store now rest (mergeCompany now "python_etl_batch" c st).1 from rfl,
        ih, scoreOf_merge_other now "python_etl_batch" c st p (fun hh => hc hh.symm)]
      simp [List.filter_cons, hc]

/-- Folding the monotonic-max combination from a stored score is folding max. -/
theorem foldl_optMax_some (xs : List ℚ) (s0 : ℚ) :
    xs.foldl (fun a s => some (optMax a s)) (some s0) = some (xs.foldl max s0) := by
  induction xs generalizing s0 with
  | nil => rfl
  | cons x rest ih =>
    rw [List.foldl_cons, List.foldl_cons]
    exact ih (max s0 x)

/-- Folding the monotonic-max combination from an empty store is folding max
from the first row. -/
theorem foldl_optMax_none (x : ℚ) (xs : List ℚ) :
    (x :: xs).foldl (fun a s => some (optMax a s)) none = some (xs.foldl max x) := by
  rw [List.foldl_cons]
  exact foldl_optMax_some xs x

/-- Number of nodes carrying a permid after a whole batch statement: one as
soon as the batch mentions the permid, unchanged otherwise. -/
theorem nodesWithPermid_batch_length (now : Nat) (cs : List CompanyEntity)
    (st : GraphState) (p : Int) (h : (nodesWithPermid st p).length ≤ 1) :
    (nodesWithPermid (batch_ingest_companies_store now cs st) p).length
      = if (cs.filter (fun c => decide (c.permid = p))).isEmpty
        then (nodesWithPermid st p).length else 1 := by
  induction cs generalizing st with
  | nil => rfl
  | cons c rest ih =>
    by_cases hc : c.permid = p
    · have h1 : (nodesWithPermid (mergeCompany now "python_etl_batch" c st).1 p).length = 1 := by
        have := nodesWithPermid_merge_length_one now "python_etl_batch" c st (by rw [hc]; exact h)
        rwa [hc] at this
      rw [show batch_ingest_companies_store now (c :: rest) st
            = batch_ingest_companies_store now rest (mergeCompany now "python_etl_batch" c st).1 from rfl,
        ih _ (le_of_eq h1), h1]
      simp [List.filter_cons, hc]
    · have h2 := nodesWithPermid_merge_other now "python_etl_batch" c st p (fun hh => hc hh.symm)
      rw [show batch_ingest_companies_store now (c :: rest) st
            = batch_ingest_companies_store now rest (mergeCompany now "python_etl_batch" c st).1 from rfl,
        ih _ (by rw [h2]; exact h), h2]
      simp [List.filter_cons, hc]

/-- A committed transaction function applied the statements in list order. -/
theorem runTxStatements_ok (fail : Nat → Option String) (now : Nat) :
    ∀ (stmts : List (String × String)) (i : Nat) (st st2 : GraphState),
      runTxStatements fail now i stmts st = Except.ok st2 →
      st2 = stmts.foldl (fun s p => mergeSupplyStatement now p.1 p.2 s) st := by
  intro stmts
  induction stmts with
  | nil =>
    intro i st st2 h
    simpa [runTxStatements] using (Except.ok.injEq _ _ ▸ h).symm
  | cons p rest ih =>
    intro i st st2 h
    rw [runTxStatements] at h
    cases hf : fail i with
    | some e => rw [hf] at h; exact absurd h (by simp)
    | none =>
      rw [hf] at h
      rw [List.foldl_cons]
      exact ih (i + 1) (mergeSupplyStatement now p.1 p.2 st) st2 h

/-- Claim C1: for every upsert of a CompanyEntity whose permid already has a
node in the store, via ingest_company_entity or batch_ingest_companies, the
stored match_score afterwards is the maximum of the existing and the supplied
score; it changes exactly when the supplied score is strictly greater and
never decreases; the concrete scenario upserting 0.7 then 0.5 keeps 0.7 and
then 0.9 yields 0.9. -/
theorem C1_match_score_monotonic_max (now : Nat) (c : CompanyEntity) (st : GraphState)
    (i : Nat) (old : Company)
    (h : nodesWithPermid st c.permid = [(i, old)]) :
    (nodesWithPermid (ingest_company_entity_store now c st).1 c.permid).map
        (fun n => n.2.match_score) = [max old.match_score c.match_score]
    ∧ (nodesWithPermid (batch_ingest_companies_store now [c] st) c.permid).map
        (fun n => n.2.match_score) = [max old.match_score c.match_score]
    ∧ old.match_score ≤ max old.match_score c.match_score
    ∧ (old.match_score < c.match_score → max old.match_score c.match_score = c.match_score)
    ∧ (c.match_score ≤ old.match_score → max old.match_score c.match_score = old.match_score)
    ∧ scoreOf (upsertX ratHalf (upsertX rat07 emptyStore)) 100 = some rat07
    ∧ scoreOf (upsertX rat09 (upsertX ratHalf (upsertX rat07 emptyStore))) 100
        = some rat09 := by
  have hne : nodesWithPermid st c.permid ≠ [] := by rw [h]; exact List.cons_ne_nil _ _
  have hp := nodesWithPermid_merge_present now "python_etl" c st hne
  have hpb := nodesWithPermid_merge_present now "python_etl_batch" c st hne
  refine ⟨?_, ?_, le_max_left _ _, fun hlt => max_eq_right hlt.le,
    fun hle => max_eq_left hle, by decide, by decide⟩
  · have hu : ingest_company_entity_store now c st = mergeCompany now "python_etl" c st := rfl
    rw [hu, hp, h]
    simp [onMatchCompany, ite_gt_eq_max]
  · have hb : batch_ingest_companies_store now [c] st
        = (mergeCompany now "python_etl_batch" c st).1 := rfl
    rw [hb, hpb, h]
    simp [onMatchCompany, ite_gt_eq_max]

/-- Witness for C1 at a concrete store: permid 5 with stored score 0.7,
upserted with score 0.5; the stored score stays max(0.7, 0.5) = 0.7. -/
theorem C1_match_score_monotonic_max_witness :
    nodesWithPermid sampleStore sampleNew.permid = [(0, sampleOld)]
    ∧ (nodesWithPermid (ingest_company_entity_store 3 sampleNew sampleStore).1
        sampleNew.permid).map (fun n => n.2.match_score)
      = [max sampleOld.match_score sampleNew.match_score] :=
  ⟨by decide, (C1_match_score_monotonic_max 3 sampleNew sampleStore 0 sampleOld (by decide)).1⟩

/-- Claim C3: upserting the same CompanyEntity twice through
ingest_company_entity leaves exactly one node carrying its permid, and the
second call does not change the total node count (the store invariant of at
most one node per permid is assumed for the initial store, as the upsert
protocol maintains it). -/
theorem C3_upsert_idempotent (now1 now2 : Nat) (c : CompanyEntity) (st : GraphState)
    (h : (nodesWithPermid st c.permid).length ≤ 1) :
    (nodesWithPermid (ingest_company_entity_store now2 c
        (ingest_company_entity_store now1 c st).1).1 c.permid).length = 1
    ∧ (ingest_company_entity_store now2 c
        (ingest_company_entity_store now1 c st).1).1.nodes.length
      = (ingest_company_entity_store now1 c st).1.nodes.length := by
  have h1 : (nodesWithPermid (mergeCompany now1 "python_etl" c st).1 c.permid).length = 1 :=
    nodesWithPermid_merge_length_one now1 "python_etl" c st h
  have hne := nodesWithPermid_merge_ne_nil now1 "python_etl" c st
  exact ⟨nodesWithPermid_merge_length_one now2 "python_etl" c _ (le_of_eq h1),
    mergeCompany_length_present now2 "python_etl" c _ hne⟩

/-- Witness for C3: upserting one entity twice into the empty store leaves
one node for its permid and the second call keeps the node count. -/
theorem C3_upsert_idempotent_witness :
    (nodesWithPermid emptyStore sampleNew.permid).length ≤ 1
    ∧ (nodesWithPermid (ingest_company_entity_store 2 sampleNew
        (ingest_company_entity_store 1 sampleNew emptyStore).1).1 sampleNew.permid).length = 1
    ∧ (ingest_company_entity_store 2 sampleNew
        (ingest_company_entity_store 1 sampleNew emptyStore).1).1.nodes.length
      = (ingest_company_entity_store 1 sampleNew emptyStore).1.nodes.length :=
  ⟨by decide, (C3_upsert_idempotent 1 2 sampleNew emptyStore (by decide)).1,
    (C3_upsert_idempotent 1 2 sampleNew emptyStore (by decide)).2⟩

/-- Claim C5: when either endpoint name of a relationship request matches no
node, create_relationship returns the FAILED result dict for that pair,
creates zero edges and creates no placeholder node: the store is unchanged. -/
theorem C5_missing_endpoint_fails (now : Nat) (rel : RelationshipData) (st : GraphState)
    (h : nodesWithName st rel.source_name = [] ∨ nodesWithName st rel.target_name = []) :
    create_relationship_run now rel st = (st, RelResult.failed)
    ∧ (create_relationship_run now rel st).1.edges = st.edges
    ∧ (create_relationship_run now rel st).1.nodes = st.nodes := by
  have hrows : (nodesWithName st rel.source_name).flatMap
      (fun s => (nodesWithName st rel.target_name).map (fun t => (s, t))) = [] := by
    rcases h with h | h <;> simp [h]
  have hstore : create_relationship_store now rel st = (st, []) := by
    simp [create_relationship_store, hrows]
  have hrun : create_relationship_run now rel st = (st, RelResult.failed) := by
    simp [create_relationship_run, hstore]
  exact ⟨hrun, by rw [hrun], by rw [hrun]⟩

/-- Witness for C5: a store holding only companies A and B, asked to relate A
to a name with no node; the call fails and the store is unchanged. -/
theorem C5_missing_endpoint_fails_witness :
    nodesWithName storeAB "Missing" = []
    ∧ create_relationship_run 9
        { source_name := "A", target_name := "Missing"
          relationship_type := "COMPETES_WITH", properties := [] } storeAB
      = (storeAB, RelResult.failed) :=
  ⟨by decide, (C5_missing_endpoint_fails 9
      { source_name := "A", target_name := "Missing"
        relationship_type := "COMPETES_WITH", properties := [] } storeAB
      (Or.inr (by decide))).1⟩

/-- Counterexample to C6 as stated: on a store holding only the nodes A and
B, requesting the two pairs (A, B) and (A, Missing) commits the transaction
and reports SUCCESS with relationships_created = 2, yet afterwards exactly
one SUPPLY_COMPONENTS edge exists (the store held none before): the second
requested edge was silently skipped because its MATCH row set is empty, so a
partial set of the requested edges — neither all nor none — is observable
after the call. -/
theorem C6_partial_batch_counterexample :
    storeAB.edges.length = 0
    ∧ nodesWithName storeAB "Missing" = []
    ∧ (create_supply_chain_relationships_run (fun _ => none) 1
        [("A", "B"), ("A", "Missing")] storeAB).2 = SupplyChainResult.success 2
    ∧ ((create_supply_chain_relationships_run (fun _ => none) 1
        [("A", "B"), ("A", "Missing")] storeAB).1.edges.filter
          (fun e => decide (e.typ = "SUPPLY_COMPONENTS"))).length = 1 := by decide

/-- Claim C6 (amended): create_supply_chain_relationships runs the per-pair
statements in the given order inside one write transaction, and atomicity
holds at the statement level: either the call reports success and the store
holds the result of applying every pair statement in order, or the store
reports a failure, the whole transaction rolls back and the store is exactly
the initial state.  However a pair statement whose supplier or customer name
matches no node applies zero edges without raising and without aborting the
transaction, so a committed batch may hold only a proper subset of the
requested edges while the call still reports SUCCESS: all-or-nothing does
not extend from statements to requested edges. -/
theorem C6_ordered_commit_or_rollback (fail : Nat → Option String) (now : Nat)
    (pairs : List (String × String)) (st : GraphState) (supplier customer : String)
    (hmissing : nodesWithName st supplier = [] ∨ nodesWithName st customer = []) :
    (create_supply_chain_relationships_run fail now pairs st
        = (applyPairs now pairs st, SupplyChainResult.success pairs.length)
      ∨ ∃ e, create_supply_chain_relationships_run fail now pairs st
        = (st, SupplyChainResult.err e))
    ∧ mergeSupplyStatement now supplier customer st = st := by
  constructor
  · cases hr : runTxStatements fail now 0 pairs st with
    | ok st2 =>
      left
      have hfold := runTxStatements_ok fail now pairs 0 st st2 hr
      simp [create_supply_chain_relationships_run, execute_write_transaction_run, hr,
        applyPairs, hfold]
    | error e =>
      right
      exact ⟨e, by
        simp [create_supply_chain_relationships_run, execute_write_transaction_run, hr]⟩
  · have hrows : (nodesWithName st supplier).flatMap
        (fun s => (nodesWithName st customer).map (fun t => (s, t))) = [] := by
      rcases hmissing with h | h <;> simp [h]
    simp [mergeSupplyStatement, hrows]

/-- Witness for the amended C6 at the concrete store of the counterexample:
the batch commits as the ordered application of its statements, and the
statement for the pair (A, Missing) leaves the store untouched. -/
theorem C6_ordered_commit_or_rollback_witness :
    nodesWithName storeAB "Missing" = []
    ∧ (create_supply_chain_relationships_run (fun _ => none) 1
          [("A", "B"), ("A", "Missing")] storeAB
        = (applyPairs 1 [("A", "B"), ("A", "Missing")] storeAB,
           SupplyChainResult.success 2)
      ∨ ∃ e, create_supply_chain_relationships_run (fun _ => none) 1
          [("A", "B"), ("A", "Missing")] storeAB
        = (storeAB, SupplyChainResult.err e))
    ∧ mergeSupplyStatement 1 "A" "Missing" storeAB = storeAB :=
  ⟨by decide,
    (C6_ordered_commit_or_rollback (fun _ => none) 1 [("A", "B"), ("A", "Missing")]
      storeAB "A" "Missing" (Or.inr (by decide))).1,
    (C6_ordered_commit_or_rollback (fun _ => none) 1 [("A", "B"), ("A", "Missing")]
      storeAB "A" "Missing" (Or.inr (by decide))).2⟩

/-- Claim C7 (amended): on an upsert whose permid already has a node, only
match_score (monotonic max) and last_updated change; name,
is_final_assembler, industry_sector, country, market_cap and revenue keep
their stored values — the supplied attributes do not overwrite them, because
the ON MATCH clause of the statement never sets those fields. -/
theorem C7_on_match_touches_only_score_and_timestamp (now : Nat) (c : CompanyEntity)
    (st : GraphState) (i : Nat) (old : Company)
    (h : nodesWithPermid st c.permid = [(i, old)]) :
    ∃ upd : Company,
      nodesWithPermid (ingest_company_entity_store now c st).1 c.permid = [(i, upd)]
      ∧ upd.name = old.name
      ∧ upd.is_final_assembler = old.is_final_assembler
      ∧ upd.industry_sector = old.industry_sector
      ∧ upd.country = old.country
      ∧ upd.market_cap = old.market_cap
      ∧ upd.revenue = old.revenue
      ∧ upd.ingestion_date = old.ingestion_date
      ∧ upd.created_by = old.created_by
      ∧ upd.last_updated = some now
      ∧ upd.match_score = max old.match_score c.match_score := by
  have hne : nodesWithPermid st c.permid ≠ [] := by rw [h]; exact List.cons_ne_nil _ _
  have hp := nodesWithPermid_merge_present now "python_etl" c st hne
  refine ⟨onMatchCompany now c old, ?_, rfl, rfl, rfl, rfl, rfl, rfl, rfl, rfl, rfl, ?_⟩
  · have hu : ingest_company_entity_store now c st = mergeCompany now "python_etl" c st := rfl
    rw [hu, hp, h]
    rfl
  · exact ite_gt_eq_max old.match_score c.match_score

/-- Counterexample to C7 as stated: re-ingesting permid 5 with name New Name
and country Taiwan leaves the stored name Old Name and country United States
untouched — the supplied attributes are not overwritten on match. -/
theorem C7_overwrite_counterexample :
    sampleNew.name = "New Name"
    ∧ sampleNew.country = some "Taiwan"
    ∧ (ingest_company_entity_store 3 sampleNew sampleStore).1.nodes.map (fun n => n.2.name)
        = ["Old Name"]
    ∧ (ingest_company_entity_store 3 sampleNew sampleStore).1.nodes.map (fun n => n.2.country)
        = [some "United States"]
    ∧ ("Old Name" : String) ≠ "New Name"
    ∧ (some "United States" : Option String) ≠ some "Taiwan" := by decide

/-- Witness for the amended C7 at the concrete store: the matched node keeps
its name and gets the refreshed timestamp. -/
theorem C7_on_match_touches_only_score_and_timestamp_witness :
    nodesWithPermid sampleStore sampleNew.permid = [(0, sampleOld)]
    ∧ ∃ upd : Company,
        nodesWithPermid (ingest_company_entity_store 3 sampleNew sampleStore).1
          sampleNew.permid = [(0, upd)]
        ∧ upd.name = sampleOld.name
        ∧ upd.last_updated = some 3 :=
  ⟨by decide, by
    obtain ⟨upd, h1, h2, _, _, _, _, _, _, _, h10, _⟩ :=
      C7_on_match_touches_only_score_and_timestamp 3 sampleNew sampleStore 0 sampleOld
        (by decide)
    exact ⟨upd, h1, h2, h10⟩⟩

/-- Claim C8 (amended): a batch mentioning one permid several times leaves
exactly one node for it, carrying the monotonic-max combination of the
stored score (when a node pre-existed) with all the duplicate scores; when no
node with that permid pre-exists this is exactly the highest score among the
duplicates. -/
theorem C8_batch_dedup_highest_score (now : Nat) (cs : List CompanyEntity)
    (st : GraphState) (p : Int) (d : ℚ) (ds : List ℚ)
    (hwf : (nodesWithPermid st p).length ≤ 1)
    (_hdup : 2 ≤ (cs.filter (fun c => decide (c.permid = p))).length)
    (hscores : (cs.filter (fun c => decide (c.permid = p))).map (fun c => c.match_score)
        = d :: ds) :
    (nodesWithPermid (batch_ingest_companies_store now cs st) p).length = 1
    ∧ (scoreOf st p = none →
        scoreOf (batch_ingest_companies_store now cs st) p = some (ds.foldl max d))
    ∧ (∀ s0 : ℚ, scoreOf st p = some s0 →
        scoreOf (batch_ingest_companies_store now cs st) p
          = some ((d :: ds).foldl max s0)) := by
  have hfil : cs.filter (fun c => decide (c.permid = p)) ≠ [] := by
    intro hh
    rw [hh] at hscores
    exact List.cons_ne_nil d ds hscores.symm
  have hlen := nodesWithPermid_batch_length now cs st p hwf
  rw [if_neg (by simpa [List.isEmpty_iff] using hfil)] at hlen
  have hsb := scoreOf_batch now cs st p
  rw [hscores] at hsb
  refine ⟨hlen, ?_, ?_⟩
  · intro h0
    rw [hsb, h0, foldl_optMax_none]
  · intro s0 h0
    rw [hsb, h0, List.foldl_cons, List.foldl_cons, foldl_optMax_some]
    rfl

/-- Counterexample to C8 as stated: a well-formed store already holding
permid 7 with score 0.9, batch-ingested with permid 7 twice (scores 0.6 then
0.8), ends with one node whose score is 0.9 — not the highest score among
the duplicates, which is 0.8. -/
theorem C8_batch_dedup_counterexample :
    (nodesWithPermid store7 7).length = 1
    ∧ ent7a.permid = 7 ∧ ent7b.permid = 7
    ∧ ent7a.match_score = rat06 ∧ ent7b.match_score = rat08
    ∧ max ent7a.match_score ent7b.match_score = rat08
    ∧ (nodesWithPermid (batch_ingest_companies_store 5 [ent7a, ent7b] store7) 7).length = 1
    ∧ scoreOf (batch_ingest_companies_store 5 [ent7a, ent7b] store7) 7 = some rat09
    ∧ rat09 ≠ rat08 := by decide

/-- Witness for the amended C8: the fresh-store scenario of the design
document — permid 7 twice with scores 0.6 then 0.8 yields the score 0.8. -/
theorem C8_batch_dedup_highest_score_witness :
    scoreOf (batch_ingest_companies_store 5 [ent7a, ent7b] emptyStore) 7
        = some ([rat08].foldl max rat06)
    ∧ [rat08].foldl max rat06 = rat08 :=
  ⟨(C8_batch_dedup_highest_score 5 [ent7a, ent7b] emptyStore 7 rat06 [rat08]
      (by decide) (by decide) (by decide)).2.1 (by decide),
    by decide⟩

/-- Claim C2 (code bug): the CompanyEntity dataclass validates nothing — the
malformed record with non-positive permid, empty name and match_score
outside [0, 1] is accepted by the constructor and flows into the store
upsert, creating a node with the out-of-range score, where the claim (and
the unit test test_input_validation of the repository) require the
construction to be rejected. -/
theorem C2_no_validation_at_construction :
    malformedEntity.permid = 0
    ∧ malformedEntity.name = ""
    ∧ ¬ (0 < malformedEntity.permid)
    ∧ ¬ (malformedEntity.match_score ≤ 1)
    ∧ (ingest_company_entity_store 0 malformedEntity emptyStore).1.nodes.map
        (fun n => n.2.match_score) = [2]
    ∧ (nodesWithPermid (ingest_company_entity_store 0 malformedEntity emptyStore).1
        0).length = 1 := by decide

/-- Claim C4 (code bug): the MERGE pattern of
create_supply_chain_relationships contains datetime(), so a second run of
the same (supplier, customer) pair at a later transaction time matches no
existing edge and creates a second SUPPLY_COMPONENTS edge: after running the
pair (A, B) at times 1 and 2 the store holds two such edges from A to B,
where the claim requires at most one edge per (source, target, type)
triple. -/
theorem C4_duplicate_supply_edges :
    ((create_supply_chain_relationships_run (fun _ => none) 1 [("A", "B")]
        storeAB).1.edges.filter
          (fun e => decide (e.src = 0 ∧ e.tgt = 1 ∧ e.typ = "SUPPLY_COMPONENTS"))).length = 1
    ∧ ((create_supply_chain_relationships_run (fun _ => none) 2 [("A", "B")]
        (create_supply_chain_relationships_run (fun _ => none) 1 [("A", "B")]
          storeAB).1).1.edges.filter
          (fun e => decide (e.src = 0 ∧ e.tgt = 1 ∧ e.typ = "SUPPLY_COMPONENTS"))).length = 2
    := by decide

/-- Claim C9 (code bug): the declared retry policy (3 attempts, transient
kinds only, base delay 2 doubling per attempt) would turn two transient
failures followed by success into a success after sleeps 2 and 4, and it is
embedded here as execute_query_declared; but the sync retry decorator wraps
a coroutine function, so the composed execute_query only creates the
coroutine inside the decorator and the first transient error surfaces at the
await of the caller: the first attempt outcome propagates immediately, with
no second attempt and no backoff sleep. -/
theorem C9_retry_never_retries :
    execute_query_declared attemptTransientTwice = RetryResult.ok 42 3 [2, 4]
    ∧ execute_query_actual attemptTransientTwice
        = AttemptOutcome.transient "ServiceUnavailable"
    ∧ queryOutcome attemptTransientTwice = Except.error "ServiceUnavailable"
    ∧ (∀ att : Nat → AttemptOutcome Nat, execute_query_actual att = att 0) :=
  ⟨by decide, by decide, rfl, fun _ => rfl⟩

/-- Claim C10: ingest_company_entity and batch_ingest_companies never let an
exception reach the caller: each returns one of the fixed structured result
dict shapes, and whenever the awaited store call raises (any error kind,
including a transient error surviving the retry wrapper) the returned dict
has status ERROR and carries the message; batch_ingest_companies
additionally reports error_count equal to the batch size and
success_count 0. -/
theorem C10_structured_error_results
    (att : Nat → AttemptOutcome (List MergeRecord))
    (attB : Nat → AttemptOutcome (List Nat))
    (cs : List CompanyEntity) (e : String) :
    ((∃ p nm s, ingest_company_entity_run att = IngestResult.record p nm s)
      ∨ ingest_company_entity_run att = IngestResult.failed
      ∨ ∃ e2, ingest_company_entity_run att = IngestResult.err e2)
    ∧ (queryOutcome att = Except.error e →
        ingest_company_entity_run att = IngestResult.err e)
    ∧ (cs ≠ [] → queryOutcome attB = Except.error e →
        batch_ingest_companies_run cs attB
          = { success_count := 0, error_count := cs.length, total := cs.length
              status := some "ERROR", error := some e }) := by
  refine ⟨?_, ?_, ?_⟩
  · cases hq : queryOutcome att with
    | ok rs =>
      cases rs with
      | nil =>
        exact Or.inr (Or.inl (by
          simp [ingest_company_entity_run, ingest_company_entity_result, hq]))
      | cons r t =>
        exact Or.inl ⟨r.permid, r.name, r.status, by
          simp [ingest_company_entity_run, ingest_company_entity_result, hq]⟩
    | error e2 =>
      exact Or.inr (Or.inr ⟨e2, by
        simp [ingest_company_entity_run, ingest_company_entity_result, hq]⟩)
  · intro hq
    simp [ingest_company_entity_run, ingest_company_entity_result, hq]
  · intro hcs hq
    have hne : cs.isEmpty = false := by simp [List.isEmpty_iff, hcs]
    simp [batch_ingest_companies_run, hne, batch_ingest_companies_result, hq]

/-- Witness for C10: a session that raises a transient error on every
attempt; the single ingest returns the ERROR dict with the message, and a
one-element batch returns the ERROR dict with error_count 1. -/
theorem C10_structured_error_results_witness :
    [sampleNew] ≠ ([] : List CompanyEntity)
    ∧ queryOutcome attFailIngest = Except.error "store down"
    ∧ queryOutcome attFailBatch = Except.error "store down"
    ∧ ingest_company_entity_run attFailIngest = IngestResult.err "store down"
    ∧ batch_ingest_companies_run [sampleNew] attFailBatch
        = { success_count := 0, error_count := 1, total := 1
            status := some "ERROR", error := some "store down" } :=
  ⟨by decide, rfl, rfl,
    (C10_structured_error_results attFailIngest attFailBatch [sampleNew] "store down").2.1
      rfl,
    (C10_structured_error_results attFailIngest attFailBatch [sampleNew] "store down").2.2
      (by decide) rfl⟩
